import Mathlib

/-!
# Verification of the spotify-m3u-import track-migration pipeline

A shallow embedding of the two Python scripts `spotify-playlist-import.py`
and `read-id3-tags.py`.  Text is modelled as `List Char` (Python `str`),
`difflib.SequenceMatcher.ratio` similarity values as `ℚ`, external
collaborators (the Spotify search client and the `eyed3` tag loader) as
function parameters, and Python exceptions as `Except`.
-/

/-- Python strings are modelled as lists of characters. -/
abbrev Str := List Char

/-- The whitespace characters removed by Python's `str.strip()`
(space, tab, newline, carriage return, vertical tab, form feed). -/
def pyWS (c : Char) : Bool :=
  c = ' ' || c = '\t' || c = '\n' || c = '\r' || c.toNat = 11 || c.toNat = 12

/-- Left part of Python `str.strip()`: drop leading whitespace. -/
def pyLStrip (s : Str) : Str := s.dropWhile pyWS

/-- Right part of Python `str.strip()`: drop trailing whitespace. -/
def pyRStrip (s : Str) : Str := (s.reverse.dropWhile pyWS).reverse

/-- Python `str.strip()`: drop whitespace from both ends. -/
def pyStrip (s : Str) : Str := pyRStrip (pyLStrip s)

/-- Python `line.startswith("#")`: the first character is `'#'`.
Applied to the *untrimmed* line in `_parse_m3u`. -/
def startsWithHash (s : Str) : Bool :=
  match s with
  | [] => false
  | c :: _ => c = '#'

/-- Python `str.split(sep)` for a one-character separator: splits on *every*
occurrence of the separator; the empty string yields `[""]`. -/
def pySplit (sep : Char) : Str → List Str
  | [] => [[]]
  | c :: rest =>
    if c = sep then [] :: pySplit sep rest
    else
      match pySplit sep rest with
      | h :: t => (c :: h) :: t
      | [] => [[ c ]]

/-- Python `os.path.basename` (POSIX): the suffix after the last `'/'`. -/
def pyBasename (p : Str) : Str := (p.reverse.takeWhile (fun c => c ≠ '/')).reverse

/-- The root part of Python `os.path.splitext` applied to a base name
(no directory separators): split off the extension at the last `'.'`,
provided some character before that dot is not itself a dot
(so `".bashrc"` keeps its leading-dot name and has no extension). -/
def pySplitextRoot (p : Str) : Str :=
  let rev := p.reverse
  match rev.dropWhile (fun c => c ≠ '.') with
  | [] => p
  | _ :: baseRev =>
    if baseRev.reverse.any (fun c => c ≠ '.') then baseRev.reverse else p

/-- A track descriptor: the Python scripts use a dict that gains keys as the
pipeline proceeds; absent keys are `none`. -/
structure Track where
  path : Option Str
  artist : Option Str
  name : Option Str
  source : Option Str
deriving DecidableEq, Repr

/-- The `source = 'itunes'` tag. -/
def itunesStr : Str := String.toList "itunes"

/-- The `source = 'id3'` tag. -/
def id3Str : Str := String.toList "id3"

/-- The `source = 'guess'` tag. -/
def guessStr : Str := String.toList "guess"

/-- Model of `_parse_m3u` from `spotify-playlist-import.py`:
`[line.strip() for line in playlist_file if line.strip() and not line.startswith("#")]`,
each kept line becoming `{'path': track}`. -/
def parseM3u (lines : List Str) : List Track :=
  ((lines.filter (fun l => !(pyStrip l).isEmpty && !startsWithHash l)).map
    (fun l => { path := some (pyStrip l), artist := none, name := none, source := none }))

/-- One entry of the iTunes XML `Tracks` mapping: the `Artist` and `Name`
keys may be absent. -/
structure XmlTrackMeta where
  artist : Option Str
  name : Option Str
deriving DecidableEq, Repr

/-- Model of `_parse_xml` from `spotify-playlist-import.py`: for each track record,
`artist = track_meta['Artist'] if 'Artist' in track_meta else ''` (same for
`Name`), appending `{'artist': artist, 'name': name, 'source': 'itunes'}`. -/
def parseXml : List XmlTrackMeta → List Track
  | [] => []
  | m :: rest =>
    { path := none,
      artist := some (match m.artist with | some a => a | none => []),
      name := some (match m.name with | some n => n | none => []),
      source := some itunesStr } :: parseXml rest

/-- The shape of the playlist file handed to `load_playlist_file`,
discriminated by its extension. -/
inductive PlaylistFile where
  | m3u (lines : List Str)
  | xml (metas : List XmlTrackMeta)
  | unsupported
deriving Repr

/-- Model of `load_playlist_file` from `spotify-playlist-import.py`: dispatch on the
file extension; `.m3u` sets `read_id3 = True`, `.xml` leaves it `False`,
any other extension exits the process (`none`). -/
def loadPlaylistFile : PlaylistFile → Option (List Track × Bool)
  | .m3u lines => some (parseM3u lines, true)
  | .xml metas => some (parseXml metas, false)
  | .unsupported => none

/-- Artist/title metadata for one track (an ID3 tag read or a filename
guess). -/
structure TagData where
  artist : Str
  name : Str
deriving DecidableEq, Repr

/-- The `tag` attribute of an `eyed3` audio file object; its `artist` and
`title` fields may be `None`. -/
structure Id3Tag where
  artist : Option Str
  title : Option Str
deriving DecidableEq, Repr

/-- An `eyed3` audio file object as far as `read_id3_tags` looks at it:
the `tag` attribute may be `None`. -/
structure Id3File where
  tag : Option Id3Tag
deriving DecidableEq, Repr

/-- Model of `read_id3_tags` from `spotify-playlist-import.py`, over the outcome of
the `eyed3.load` call: an exception from `eyed3.load` is caught (leaving
`tag_data = None`); but when `eyed3.load` returns `None`, the subsequent
attribute access `track_id3.tag` raises an `AttributeError` that is *not*
inside the `try` block, so it propagates.  Tag data is produced exactly
when the tag exists and both `artist` and `title` are not `None`. -/
def read_id3_tags (load : Except String (Option Id3File)) : Except String (Option TagData) :=
  match load with
  | .error _ => .ok none
  | .ok none => .error "AttributeError"
  | .ok (some f) =>
    match f.tag with
    | none => .ok none
    | some t =>
      match t.artist, t.title with
      | some a, some ti => .ok (some { artist := a, name := ti })
      | some _, none => .ok none
      | none, some _ => .ok none
      | none, none => .ok none

/-- Model of `guess_missing_track_info` from `spotify-playlist-import.py`: strip the
directory and extension from the file name, split the remainder on *every*
`'-'`; with at least two parts, the guess is
`{'artist': parts[0].strip(), 'name': parts[1].strip()}`. -/
def guessMissingTrackInfo (file_name : Str) : Option TagData :=
  let filename := pyBasename file_name
  let filename_no_ext := pySplitextRoot filename
  match pySplit '-' filename_no_ext with
  | p0 :: p1 :: _ => some { artist := pyStrip p0, name := pyStrip p1 }
  | _ => none

/-- The per-track metadata phase of `main` in `spotify-playlist-import.py`:
when `try_read_tags` is true, read ID3 tags from `track['path']` (the
`eyed3.load` behaviour at each path given by `loadOracle`); on tag data,
update the track with `source='id3'`; otherwise fall back to the filename
guess with `source='guess'`; when `try_read_tags` is false the track is
left untouched.  A missing `path` key would raise a `KeyError`. -/
def processTrackMetadata (loadOracle : Str → Except String (Option Id3File))
    (tryReadTags : Bool) (t : Track) : Except String Track :=
  if tryReadTags then
    match t.path with
    | none => .error "KeyError"
    | some p =>
      match read_id3_tags (loadOracle p) with
      | .error e => .error e
      | .ok (some d) =>
        .ok { t with artist := some d.artist, name := some d.name, source := some id3Str }
      | .ok none =>
        match guessMissingTrackInfo p with
        | some g =>
          .ok { t with artist := some g.artist, name := some g.name, source := some guessStr }
        | none => .ok t
  else .ok t

/-- One Spotify search result as far as the scripts look at it
(`id`, `name`, and `artists[0]['name']`). -/
structure SpotifyResult where
  id : Str
  name : Str
  artist : Str
deriving DecidableEq, Repr

/-- The match dict built by `_select_result_from_spotify_search`. -/
structure MatchResult where
  id : Str
  name : Str
  artist : Str
deriving DecidableEq, Repr

/-- The rank-attaching loop: each search result gains
`result['rank'] = SequenceMatcher(None, track_name, result['name']).ratio()`;
the similarity function is an external collaborator parameter. -/
def rankResults (sim : Str → Str → ℚ) (trackName : Str) (results : List SpotifyResult) :
    List (SpotifyResult × ℚ) :=
  results.map (fun r => (r, sim trackName r.name))

/-- Model of `_select_result_from_spotify_search`: search, rank every result by
similarity of its name to `track_name`; return the first result of rank
exactly `1.0` in catalog order; otherwise stably sort by rank descending
(`sorted(key=rank, reverse=True)`) and return the top result when its rank
strictly exceeds the threshold; else no match (`False`). -/
def selectResultFromSpotifySearch (sim : Str → Str → ℚ)
    (search : Str → List SpotifyResult) (searchString trackName : Str)
    (threshold : ℚ) : Option MatchResult :=
  let resultsRaw := search searchString
  if resultsRaw.length > 0 then
    let ranked := rankResults sim trackName resultsRaw
    match ranked.find? (fun p => decide (p.2 = (1 : ℚ))) with
    | some p => some { id := p.1.id, name := p.1.name, artist := p.1.artist }
    | none =>
      match ranked.mergeSort (fun a b => decide (b.2 ≤ a.2)) with
      | top :: _ =>
        if threshold < top.2 then
          some { id := top.1.id, name := top.1.name, artist := top.1.artist }
        else none
      | [] => none
  else none

/-- The track record of `read-id3-tags.py`: `id3_data` is set for every
track (`False` on failure, modelled `none`), `guess` only when the tag read
failed (an absent or `False` value is modelled `none`). -/
structure TrackR where
  id3_data : Option TagData
  guess : Option TagData
deriving DecidableEq, Repr

/-- Model of `find_spotify_track` from `read-id3-tags.py`: first search with the
ID3-tag artist/title (query `'%s %s'`), returning on a match; otherwise
search again with the filename-guess artist/title; otherwise `False`. -/
def findSpotifyTrack (sim : Str → Str → ℚ) (search : Str → List SpotifyResult)
    (t : TrackR) : Option MatchResult :=
  let attemptGuess : Option MatchResult :=
    match t.guess with
    | some g =>
      selectResultFromSpotifySearch sim search (g.artist ++ [ ' ' ] ++ g.name) g.name (1/2)
    | none => none
  match t.id3_data with
  | some d =>
    match selectResultFromSpotifySearch sim search (d.artist ++ [ ' ' ] ++ d.name) d.name (1/2) with
    | some r => some r
    | none => attemptGuess
  | none => attemptGuess

/-- The `chunker` generator from `main`:
`(seq[pos:pos + size] for pos in xrange(0, len(seq), size))`.
A zero chunk size would raise `ValueError` in `xrange` (never happens:
the only call site passes 100). -/
def chunker (size : Nat) (l : List α) : List (List α) :=
  match size, l with
  | _, [] => []
  | 0, _ :: _ => []
  | s + 1, x :: xs => (x :: xs).take (s + 1) :: chunker (s + 1) (xs.drop s)
termination_by l.length
decreasing_by simp; omega

/-- The add-tracks batches issued by `main`: one call with the whole list
when it has at most 100 ids, otherwise one call per 100-sized chunk. -/
def addBatches (ids : List Str) : List (List Str) :=
  if ids.length > 100 then chunker 100 ids else [ids]

/-- Observable outcome of the publish phase of `main`. -/
structure PublishOutcome where
  createCalled : Bool
  addCalls : List (List Str)
  noMatchesReported : Bool
  mainReturn : Option Nat
deriving DecidableEq, Repr

/-- The publish phase of `main` in `spotify-playlist-import.py`: with no
matched ids, print `'No tracks matched on Spotify'` and `return 1` before
any playlist call; with ids and a user token, create the playlist and issue
the add-tracks batches; without a token, log and fall through
(`main` returns `None`). -/
def publishPhase (spotifyTracks : List Str) (tokenOk : Bool) : PublishOutcome :=
  if spotifyTracks.length < 1 then
    { createCalled := false, addCalls := [], noMatchesReported := true, mainReturn := some 1 }
  else if tokenOk then
    { createCalled := true, addCalls := addBatches spotifyTracks,
      noMatchesReported := false, mainReturn := none }
  else
    { createCalled := false, addCalls := [], noMatchesReported := false, mainReturn := none }

/-- The module entry point `if __name__ == "__main__": main()` discards the
value returned by `main`; since `sys.exit` is not called on that path, the
interpreter exits normally with status 0 whatever `main` returned. -/
def scriptExitCode (_outcome : PublishOutcome) : Nat := 0

/-! ## Helper lemmas about the text model -/

/-- A stripped line is empty exactly when every character is whitespace. -/
theorem pyStrip_eq_nil_iff (l : Str) : pyStrip l = [] ↔ ∀ c ∈ l, pyWS c = true := by
  unfold pyStrip pyRStrip pyLStrip
  rw [List.reverse_eq_nil_iff, List.dropWhile_eq_nil_iff]
  constructor
  · intro h c hc
    by_cases hw : pyWS c = true
    · exact hw
    · exfalso
      have hmem : c ∈ l.dropWhile pyWS := by
        have := List.takeWhile_append_dropWhile pyWS l
        rcases List.mem_append.mp (this ▸ hc) with h1 | h1
        · have := List.mem_takeWhile_imp h1
          exact absurd this hw
        · exact h1
      exact hw (h c (List.mem_reverse.mpr hmem))
  · intro h c hc
    exact h c ((List.dropWhile_sublist pyWS).subset (List.mem_reverse.mp hc))

/-- The untrimmed comment test, expressed on the first character. -/
theorem startsWithHash_eq (l : Str) : startsWithHash l = decide (l.head? = some '#') := by
  cases l with
  | nil => simp [startsWithHash]
  | cons c rest => simp [startsWithHash]


/-- The filter test of `_parse_m3u`, rephrased: a line is kept exactly when
it has a non-whitespace character and its first character is not `'#'`. -/
theorem parseM3u_keep_eq (l : Str) :
    (!(pyStrip l).isEmpty && !startsWithHash l)
      = (decide (∃ c ∈ l, pyWS c = false) && !decide (l.head? = some '#')) := by
  rw [startsWithHash_eq]
  congr 1
  rw [Bool.eq_iff_iff]
  rw [Bool.not_eq_true', List.isEmpty_eq_false, decide_eq_true_eq]
  rw [ne_eq, pyStrip_eq_nil_iff]
  constructor
  · intro h
    by_contra hno
    push_neg at hno
    exact h fun c hc => eq_true_of_ne_false (hno c hc)
  · rintro ⟨c, hc, hw⟩ h
    rw [h c hc] at hw
    cases hw


/-- C5: For every .m3u input with N non-blank, non-comment ('#'-prefixed)
lines, the reader yields exactly N descriptors, in file order, each with
path equal to the corresponding trimmed line and no artist/name metadata. -/
theorem c5_m3u_reader (lines : List Str) :
    parseM3u lines
      = (lines.filter fun l => decide (∃ c ∈ l, pyWS c = false) && !decide (l.head? = some '#')).map
          (fun l => { path := some (pyStrip l), artist := none, name := none, source := none })
    ∧ (parseM3u lines).length
      = lines.countP (fun l => decide (∃ c ∈ l, pyWS c = false) && !decide (l.head? = some '#')) := by
  have hfilter :
      lines.filter (fun l => !(pyStrip l).isEmpty && !startsWithHash l)
        = lines.filter (fun l => decide (∃ c ∈ l, pyWS c = false) && !decide (l.head? = some '#')) :=
    List.filter_congr (fun l _ => parseM3u_keep_eq l)
  constructor
  · rw [parseM3u, hfilter]
  · rw [parseM3u, hfilter, List.length_map, List.countP_eq_length_filter]


/-- C10: the comment test of `_parse_m3u` is applied to the *untrimmed*
line: a line of leading whitespace followed by `'#'` is not skipped but
becomes a descriptor whose path is the trimmed line, which begins with
`'#'`; only a line whose very first character is `'#'` (or an all-blank
line) is skipped. -/
theorem c10_untrimmed_comment_test (ws rest : Str) (h1 : ws ≠ [])
    (h2 : ∀ c ∈ ws, pyWS c = true) :
    parseM3u [ws ++ '#' :: rest]
      = [{ path := some (pyStrip (ws ++ '#' :: rest)), artist := none, name := none,
           source := none }]
    ∧ (pyStrip (ws ++ '#' :: rest)).head? = some '#'
    ∧ (∀ l : Str, parseM3u [l] = [] ↔ (pyStrip l = [] ∨ l.head? = some '#')) := by
  have hsingle : ∀ l : Str,
      parseM3u [l] = if (!(pyStrip l).isEmpty && !startsWithHash l) = true
        then [{ path := some (pyStrip l), artist := none, name := none, source := none }]
        else [] := by
    intro l
    rw [parseM3u, List.filter]
    cases h : (!(pyStrip l).isEmpty && !startsWithHash l) <;> simp [h]
  have hhash : startsWithHash (ws ++ '#' :: rest) = false := by
    cases ws with
    | nil => exact absurd rfl h1
    | cons w ws' =>
      simp only [List.cons_append, startsWithHash, decide_eq_false_iff_not]
      intro he
      subst he
      exact absurd (h2 '#' (List.mem_cons_self _ _)) (by decide)
  have hnonblank : pyStrip (ws ++ '#' :: rest) ≠ [] := by
    intro h
    have := (pyStrip_eq_nil_iff _).mp h '#' (by simp)
    exact absurd this (by decide)
  refine ⟨?_, ?_, ?_⟩
  · rw [hsingle]
    rw [if_pos]
    rw [hhash]
    simp [List.isEmpty_eq_false.mpr hnonblank]
  · have hl : pyLStrip (ws ++ '#' :: rest) = '#' :: rest := by
      rw [pyLStrip, List.dropWhile_append_of_pos h2, List.dropWhile_cons_of_neg (by decide)]
    rw [pyStrip, hl, pyRStrip, List.reverse_cons, List.dropWhile_append]
    by_cases he : (rest.reverse.dropWhile pyWS).isEmpty
    · rw [if_pos he]
      rw [List.dropWhile_cons_of_neg (by decide)]
      simp
    · rw [if_neg he]
      simp
  · intro l
    rw [hsingle]
    rw [parseM3u_keep_eq]
    by_cases hb : ∃ c ∈ l, pyWS c = false
    · have hne : pyStrip l ≠ [] := by
        intro h
        rcases hb with ⟨c, hc, hw⟩
        rw [(pyStrip_eq_nil_iff l).mp h c hc] at hw
        cases hw
      by_cases hh : l.head? = some '#'
      · simp [hb, hh]
      · simp [hb, hh, hne]
    · have hnil : pyStrip l = [] := by
        rw [pyStrip_eq_nil_iff]
        intro c hc
        by_contra hcon
        exact hb ⟨c, hc, by simpa using hcon⟩
      simp [hb, hnil]


/-- Witness for C10 at the concrete line `" #EXTM3U"`. -/
theorem c10_untrimmed_comment_test_witness :
    parseM3u [([ ' ' ] ++ '#' :: String.toList "EXTM3U")]
      = [{ path := some (pyStrip ([ ' ' ] ++ '#' :: String.toList "EXTM3U")), artist := none,
           name := none, source := none }]
    ∧ (pyStrip ([ ' ' ] ++ '#' :: String.toList "EXTM3U")).head? = some '#' :=
  ⟨(c10_untrimmed_comment_test [ ' ' ] (String.toList "EXTM3U") (by decide) (by decide)).1,
   (c10_untrimmed_comment_test [ ' ' ] (String.toList "EXTM3U") (by decide) (by decide)).2.1⟩

/-- C6: every entry of the Tracks mapping of an .xml input yields exactly
one descriptor with source = itunes and artist/name taken from the entry's
Artist/Name fields (a missing field becomes the empty string); the reader
reports `needsTagRead = false`, under which the per-track metadata phase
leaves every descriptor untouched (no tag read, no filename heuristic). -/
theorem c6_xml_reader (metas : List XmlTrackMeta) :
    loadPlaylistFile (.xml metas) = some (parseXml metas, false)
    ∧ parseXml metas = metas.map (fun m =>
        { path := none, artist := some (m.artist.getD []), name := some (m.name.getD []),
          source := some itunesStr })
    ∧ ∀ (oracle : Str → Except String (Option Id3File)) (t : Track), t ∈ parseXml metas →
        processTrackMetadata oracle false t = .ok t := by
  refine ⟨rfl, ?_, ?_⟩
  · induction metas with
    | nil => rfl
    | cons m rest ih =>
      rw [parseXml, List.map_cons, ih]
      cases m.artist <;> cases m.name <;> rfl
  · intro oracle t _
    rfl

/-- Witness for C6 on a two-entry Tracks mapping, one entry with both
fields and one with neither. -/
theorem c6_xml_reader_witness :
    parseXml [⟨some (String.toList "A"), some (String.toList "B")⟩, ⟨none, none⟩]
      = [{ path := none, artist := some (String.toList "A"), name := some (String.toList "B"),
           source := some itunesStr },
         { path := none, artist := some [], name := some [], source := some itunesStr }]
    ∧ processTrackMetadata (fun _ => .ok none) false
        { path := none, artist := some (String.toList "A"), name := some (String.toList "B"),
          source := some itunesStr }
      = .ok { path := none, artist := some (String.toList "A"),
              name := some (String.toList "B"), source := some itunesStr } :=
  ⟨by
    rw [(c6_xml_reader [⟨some (String.toList "A"), some (String.toList "B")⟩, ⟨none, none⟩]).2.1]
    rfl,
   (c6_xml_reader [⟨some (String.toList "A"), some (String.toList "B")⟩, ⟨none, none⟩]).2.2
     (fun _ => .ok none) _ (by decide)⟩


/-- Counterexample to C4: `read_id3_tags` checks the tag fields against
`None`, not against emptiness.  With a tag whose artist is the *empty*
string (and title `"t"`), the descriptor is populated with `source = id3`
and the empty artist — the filename heuristic (which would have guessed
artist `"x"`, name `"y"` from `"x-y.mp3"`) is skipped, contrary to the
claim that an empty field sends the extractor to the fallback. -/
theorem c4_empty_field_counterexample :
    processTrackMetadata (fun _ => .ok (some ⟨some ⟨some [], some [ 't' ]⟩⟩)) true
        { path := some (String.toList "x-y.mp3"), artist := none, name := none, source := none }
      = .ok { path := some (String.toList "x-y.mp3"), artist := some [], name := some [ 't' ],
              source := some id3Str }
    ∧ ({ path := some (String.toList "x-y.mp3"), artist := some [], name := some [ 't' ],
         source := some id3Str } : Track)
      ≠ { path := some (String.toList "x-y.mp3"), artist := some (String.toList "x"),
          name := some (String.toList "y"), source := some guessStr }
    ∧ guessMissingTrackInfo (String.toList "x-y.mp3")
      = some { artist := String.toList "x", name := String.toList "y" } :=
  ⟨rfl, by decide, by decide⟩

/-- C4 as amended: the extractor populates the descriptor from tag
metadata (`source = id3`, heuristic skipped) exactly when the tag object
exists and both its artist and title fields are *present* (not `None`);
emptiness is not checked.  When the tag is absent or either field is
`None`, the tag result is unused and the filename heuristic applies. -/
theorem c4_amended_presence_check (p : Str) (f : Id3File) :
    (∀ tg a ti, f.tag = some tg → tg.artist = some a → tg.title = some ti →
      processTrackMetadata (fun _ => .ok (some f)) true
          { path := some p, artist := none, name := none, source := none }
        = .ok { path := some p, artist := some a, name := some ti, source := some id3Str })
    ∧ ((f.tag = none ∨ ∃ tg, f.tag = some tg ∧ (tg.artist = none ∨ tg.title = none)) →
      processTrackMetadata (fun _ => .ok (some f)) true
          { path := some p, artist := none, name := none, source := none }
        = match guessMissingTrackInfo p with
          | some g => .ok { path := some p, artist := some g.artist, name := some g.name,
                            source := some guessStr }
          | none => .ok { path := some p, artist := none, name := none, source := none }) := by
  constructor
  · intro tg a ti htg ha hti
    have hread : read_id3_tags (.ok (some f)) = .ok (some { artist := a, name := ti }) := by
      simp only [read_id3_tags, htg, ha, hti]
    simp [processTrackMetadata, hread]
  · intro hcase
    have hread : read_id3_tags (.ok (some f)) = .ok none := by
      rcases hcase with h | ⟨tg, htg, h⟩
      · simp only [read_id3_tags, h]
      · rcases h with h | h
        · simp only [read_id3_tags, htg, h]
          cases h2 : tg.title <;> rfl
        · simp only [read_id3_tags, htg, h]
          cases h2 : tg.artist <;> rfl
    simp only [processTrackMetadata, hread, if_true]

/-- Witness for C4 (amended) with a present-but-empty artist field. -/
theorem c4_amended_presence_check_witness :
    processTrackMetadata (fun _ => .ok (some ⟨some ⟨some [], some [ 't' ]⟩⟩)) true
        { path := some (String.toList "x-y.mp3"), artist := none, name := none, source := none }
      = .ok { path := some (String.toList "x-y.mp3"), artist := some [], name := some [ 't' ],
              source := some id3Str } :=
  (c4_amended_presence_check (String.toList "x-y.mp3") ⟨some ⟨some [], some [ 't' ]⟩⟩).1
    ⟨some [], some [ 't' ]⟩ [] [ 't' ] rfl rfl rfl


/-- Counterexample to C9: the `try` in `read_id3_tags` only guards the
`eyed3.load` call.  When the collaborator *signals absence* by returning
`None` (as `eyed3.load` does for an unrecognised file type), the attribute
access `track_id3.tag` raises an `AttributeError` outside the `try`, and
the error propagates to the caller instead of falling through to the
filename heuristic. -/
theorem c9_absence_counterexample :
    read_id3_tags (.ok none) = .error "AttributeError"
    ∧ processTrackMetadata (fun _ => .ok none) true
        { path := some (String.toList "a.mp3"), artist := none, name := none, source := none }
      = .error "AttributeError" :=
  ⟨rfl, rfl⟩

/-- C9 as amended: if the tag-reading collaborator *raises* an error, the
extractor returns no tag data and proceeds to the filename-heuristic
fallback — the raised error is never propagated; but if the collaborator
signals absence by returning no file object, the extractor's attribute
access fails and an AttributeError propagates to the caller. -/
theorem c9_amended_error_containment (e : String) (p : Str) :
    read_id3_tags (.error e) = .ok none
    ∧ processTrackMetadata (fun _ => .error e) true
        { path := some p, artist := none, name := none, source := none }
      = (match guessMissingTrackInfo p with
         | some g => .ok { path := some p, artist := some g.artist, name := some g.name,
                           source := some guessStr }
         | none => .ok { path := some p, artist := none, name := none, source := none })
    ∧ processTrackMetadata (fun _ => .ok none) true
        { path := some p, artist := none, name := none, source := none }
      = .error "AttributeError" := by
  refine ⟨rfl, ?_, rfl⟩
  simp only [processTrackMetadata, read_id3_tags, if_true]


/-- A `chunker` of the empty list is empty (no slice positions). -/
theorem chunker_nil (size : Nat) : chunker size ([] : List α) = [] := by
  cases size <;> simp [chunker]

/-- Unfolding step of `chunker` for a positive chunk size. -/
theorem chunker_cons_eq (s : Nat) (l : List α) (h : l ≠ []) :
    chunker (s + 1) l = l.take (s + 1) :: chunker (s + 1) (l.drop (s + 1)) := by
  cases l with
  | nil => exact absurd rfl h
  | cons x xs => rw [chunker, List.drop_succ_cons]

/-- The `chunker` only slices: concatenating the chunks gives the list back. -/
theorem chunker_flatten (s : Nat) (n : Nat) :
    ∀ l : List α, l.length ≤ n → (chunker (s + 1) l).flatten = l := by
  induction n with
  | zero =>
    intro l hl
    rw [List.length_eq_zero.mp (Nat.le_zero.mp hl), chunker_nil]
    rfl
  | succ n ih =>
    intro l hl
    cases l with
    | nil => rw [chunker_nil]; rfl
    | cons x xs =>
      rw [chunker_cons_eq s _ (by simp), List.flatten_cons,
        ih _ (by simp at hl ⊢; omega), List.take_append_drop]

/-- Every chunk produced by `chunker` has at most the requested size. -/
theorem chunker_sizes (s : Nat) (n : Nat) :
    ∀ l : List α, l.length ≤ n → ∀ b ∈ chunker (s + 1) l, b.length ≤ s + 1 := by
  induction n with
  | zero =>
    intro l hl
    rw [List.length_eq_zero.mp (Nat.le_zero.mp hl), chunker_nil]
    intro b hb
    cases hb
  | succ n ih =>
    intro l hl b hb
    cases l with
    | nil => rw [chunker_nil] at hb; cases hb
    | cons x xs =>
      rw [chunker_cons_eq s _ (by simp)] at hb
      rcases List.mem_cons.mp hb with h | h
      · rw [h]
        simp
      · exact ih _ (by simp at hl ⊢; omega) b h

/-- C7: for every non-empty list of matched catalog IDs, the add-batches
issued by the publisher are each of size at most 100 and concatenate, in
issue order, to the original list; 150 IDs give exactly two batches of
sizes 100 and 50. -/
theorem c7_publisher_batches (ids : List Str) (hne : ids ≠ []) :
    (addBatches ids).flatten = ids
    ∧ (∀ b ∈ addBatches ids, b.length ≤ 100)
    ∧ (ids.length = 150 → (addBatches ids).map List.length = [100, 50]) := by
  refine ⟨?_, ?_, ?_⟩
  · rw [addBatches]
    by_cases h : ids.length > 100
    · rw [if_pos h]
      exact chunker_flatten 99 ids.length ids le_rfl
    · rw [if_neg h]
      simp
  · intro b hb
    rw [addBatches] at hb
    by_cases h : ids.length > 100
    · rw [if_pos h] at hb
      exact chunker_sizes 99 ids.length ids le_rfl b hb
    · rw [if_neg h] at hb
      rcases List.mem_cons.mp hb with hb1 | hb1
      · rw [hb1]; omega
      · cases hb1
  · intro hlen
    have h100 : ids.length > 100 := by omega
    rw [addBatches, if_pos h100]
    have h1 : ids ≠ [] := hne
    have h2 : ids.drop 100 ≠ [] := by
      intro h
      rw [List.drop_eq_nil_iff] at h
      omega
    have h3 : (ids.drop 100).drop 100 = [] := by
      rw [List.drop_drop, List.drop_eq_nil_iff]
      omega
    rw [show (100 : Nat) = 99 + 1 from rfl, chunker_cons_eq 99 ids h1,
      chunker_cons_eq 99 _ h2, h3, chunker_nil]
    simp only [List.map_cons, List.map_nil, List.length_take, List.length_drop, hlen]
    decide

/-- Witness for C7 at a concrete 150-element ID list. -/
theorem c7_publisher_batches_witness :
    (addBatches (List.replicate 150 (String.toList "id"))).map List.length = [100, 50] :=
  (c7_publisher_batches (List.replicate 150 (String.toList "id")) (by simp)).2.2 (by simp)

/-- C8 (supporting theorem for the code defect): with zero matched IDs the
publish phase reports the no-match outcome, creates no playlist, issues no
add-tracks call, and `main` returns 1 — but the module entry point discards
that value, so the process exit status is 0, not the claimed 1. -/
theorem c8_zero_matches (tok : Bool) :
    publishPhase [] tok
      = { createCalled := false, addCalls := [], noMatchesReported := true, mainReturn := some 1 }
    ∧ scriptExitCode (publishPhase [] tok) = 0 := by
  exact ⟨rfl, rfl⟩


/-- Behaviour of `pySplit` at the first occurrence of the separator: the part before it
becomes the first segment. -/
theorem pySplit_append (sep : Char) (l r : Str) (hl : sep ∉ l) :
    pySplit sep (l ++ sep :: r) = l :: pySplit sep r := by
  induction l with
  | nil => simp [pySplit]
  | cons c l' ih =>
    have hc : c ≠ sep := fun h => hl (h ▸ List.mem_cons_self c l')
    rw [List.cons_append, pySplit, if_neg hc, ih (fun h => hl (List.mem_cons_of_mem c h))]

/-- The first segment of a `pySplit` is the run of non-separator
characters at the front. -/
theorem pySplit_head (sep : Char) (r : Str) :
    ∃ t, pySplit sep r = r.takeWhile (fun c => c ≠ sep) :: t := by
  induction r with
  | nil => exact ⟨[], rfl⟩
  | cons c r' ih =>
    by_cases hc : c = sep
    · subst hc
      refine ⟨pySplit c r', ?_⟩
      rw [pySplit, if_pos rfl, List.takeWhile_cons]
      simp
  
    · rcases ih with ⟨t, ht⟩
      refine ⟨t, ?_⟩
      rw [pySplit, if_neg hc, ht, List.takeWhile_cons]
      simp [hc]

/-- A string without the separator is not split. -/
theorem pySplit_of_not_mem (sep : Char) (s : Str) (h : sep ∉ s) :
    pySplit sep s = [s] := by
  induction s with
  | nil => rfl
  | cons c s' ih =>
    have hc : c ≠ sep := fun he => h (he ▸ List.mem_cons_self c s')
    rw [pySplit, if_neg hc, ih (fun hm => h (List.mem_cons_of_mem c hm))]

/-- Counterexample to C3: for `"a-b-c.mp3"` the claim predicts the guess
`{artist: "a", name: "b-c"}` (title = everything after the first dash),
but `split('-')` takes only the second dash-separated segment, so the code
yields `{artist: "a", name: "b"}`. -/
theorem c3_second_segment_counterexample :
    guessMissingTrackInfo (String.toList "a-b-c.mp3")
      = some { artist := String.toList "a", name := String.toList "b" }
    ∧ guessMissingTrackInfo (String.toList "a-b-c.mp3")
      ≠ some { artist := String.toList "a", name := String.toList "b-c" } := by
  exact ⟨by decide, by decide⟩

/-- C3 as amended: when the base name (extension stripped) contains a
`'-'`, the guess's artist is the trimmed text before the first `'-'` and
its name is the trimmed text between the first `'-'` and the next `'-'`
(the second dash-separated segment — not the entire right part); a base
name without `'-'` yields no guess. -/
theorem c3_amended_split_segments (fn : Str) :
    (∀ l r : Str, pySplitextRoot (pyBasename fn) = l ++ '-' :: r → '-' ∉ l →
      guessMissingTrackInfo fn
        = some { artist := pyStrip l, name := pyStrip (r.takeWhile (fun c => c ≠ '-')) })
    ∧ ('-' ∉ pySplitextRoot (pyBasename fn) → guessMissingTrackInfo fn = none) := by
  constructor
  · intro l r heq hnl
    rw [guessMissingTrackInfo]
    rcases pySplit_head '-' r with ⟨t, ht⟩
    rw [heq, pySplit_append '-' l r hnl, ht]
  · intro h
    rw [guessMissingTrackInfo, pySplit_of_not_mem '-' _ h]

/-- Witness for C3 (amended) at `"a-b-c.mp3"`. -/
theorem c3_amended_split_segments_witness :
    guessMissingTrackInfo (String.toList "a-b-c.mp3")
      = some { artist := pyStrip (String.toList "a"),
               name := pyStrip ((String.toList "b-c").takeWhile (fun c => c ≠ '-')) } :=
  (c3_amended_split_segments (String.toList "a-b-c.mp3")).1
    (String.toList "a") (String.toList "b-c") (by decide) (by decide)


/-- C2: the resolver of `read-id3-tags.py` implements a two-attempt
policy.  For a track carrying both tag-derived and filename-guess
metadata: a match from the tag-based search is returned as-is (the guess
search cannot affect the result), and when the tag-based search yields no
match, the result is exactly that of the guess-based search — at most two
attempts, stopping at the first that matches. -/
theorem c2_two_attempt_policy (sim : Str → Str → ℚ)
    (search : Str → List SpotifyResult) (t : TrackR) (d g : TagData)
    (hd : t.id3_data = some d) (hg : t.guess = some g) :
    (∀ m, selectResultFromSpotifySearch sim search (d.artist ++ [ ' ' ] ++ d.name) d.name (1/2)
        = some m → findSpotifyTrack sim search t = some m)
    ∧ (selectResultFromSpotifySearch sim search (d.artist ++ [ ' ' ] ++ d.name) d.name (1/2)
        = none →
      findSpotifyTrack sim search t
        = selectResultFromSpotifySearch sim search (g.artist ++ [ ' ' ] ++ g.name) g.name (1/2)) := by
  constructor
  · intro m hm
    simp only [findSpotifyTrack, hd, hm]
  · intro hnone
    simp only [findSpotifyTrack, hd, hnone, hg]

/-- Witness for C2: with a search collaborator returning no results, the
tag attempt yields no match and the resolver's outcome is the guess
attempt's. -/
theorem c2_two_attempt_policy_witness :
    findSpotifyTrack (fun _ _ => (0 : ℚ)) (fun _ => [])
        { id3_data := some { artist := String.toList "ta", name := String.toList "tn" },
          guess := some { artist := String.toList "ga", name := String.toList "gn" } }
      = selectResultFromSpotifySearch (fun _ _ => (0 : ℚ)) (fun _ => [])
          (String.toList "ga" ++ [ ' ' ] ++ String.toList "gn") (String.toList "gn") (1/2) :=
  (c2_two_attempt_policy (fun _ _ => (0 : ℚ)) (fun _ => [])
    { id3_data := some { artist := String.toList "ta", name := String.toList "tn" },
      guess := some { artist := String.toList "ga", name := String.toList "gn" } }
    { artist := String.toList "ta", name := String.toList "tn" }
    { artist := String.toList "ga", name := String.toList "gn" } rfl rfl).2 rfl


/-- The result of `find?` only depends on the predicate's values on the list. -/
theorem find?_congr_mem {α : Type _} {p q : α → Bool} :
    ∀ l : List α, (∀ x ∈ l, p x = q x) → l.find? p = l.find? q := by
  intro l
  induction l with
  | nil => intro _; rfl
  | cons a l ih =>
    intro h
    have ha := h a (List.mem_cons_self a l)
    cases hq : q a
    · rw [List.find?_cons_of_neg _ (by simp [ha, hq]), List.find?_cons_of_neg _ (by simp [hq])]
      exact ih (fun x hx => h x (List.mem_cons_of_mem a hx))
    · rw [List.find?_cons_of_pos _ (by simp [ha, hq]), List.find?_cons_of_pos _ (by simp [hq])]

/-- Head of a stable descending sort: sorting by a rational key in
descending order (`sorted(key=..., reverse=True)` semantics, ties keeping
input order) puts at the head the *first* input element attaining the
maximal key. -/
theorem head_mergeSort_rank {α : Type _} (key : α → ℚ) (l : List α) :
    (l.mergeSort (fun x y => decide (key y ≤ key x))).head?
      = l.find? (fun x => l.all (fun y => decide (key y ≤ key x))) := by
  induction l with
  | nil => simp
  | cons a l ih =>
    have htrans : ∀ (x y z : α), decide (key y ≤ key x) = true → decide (key z ≤ key y) = true →
        decide (key z ≤ key x) = true := by
      intro x y z h1 h2
      simp only [decide_eq_true_eq] at h1 h2 ⊢
      exact le_trans h2 h1
    have htotal : ∀ (x y : α), (decide (key y ≤ key x) || decide (key x ≤ key y)) = true := by
      intro x y
      simp only [Bool.or_eq_true, decide_eq_true_eq]
      exact le_total (key y) (key x)
    obtain ⟨l₁, l₂, h1, h2, h3⟩ := List.mergeSort_cons htrans htotal a l
    cases l₁ with
    | nil =>
      rw [List.nil_append] at h1
      have hsorted := List.sorted_mergeSort htrans htotal (a :: l)
      rw [h1] at hsorted
      have hperm := List.mergeSort_perm (a :: l) (fun x y => decide (key y ≤ key x))
      rw [h1] at hperm
      have hmax : ∀ y ∈ a :: l, key y ≤ key a := by
        intro y hy
        rcases List.mem_cons.mp (hperm.mem_iff.mpr hy) with h | h
        · rw [h]
        · simpa using List.rel_of_pairwise_cons hsorted h
      rw [h1, List.find?_cons_of_pos]
      · rfl
      · simp only [List.all_eq_true, decide_eq_true_eq]
        exact hmax
    | cons b l₁' =>
      have hhead : ((b :: l₁') ++ a :: l₂).head? = some b := rfl
      have hfl : l.find? (fun x => l.all (fun y => decide (key y ≤ key x))) = some b := by
        rw [← ih, h2]
        rfl
      have hbl : b ∈ l := by
        have hb : b ∈ List.mergeSort l (fun x y => decide (key y ≤ key x)) := by
          rw [h2]
          exact List.mem_cons_self _ _
        exact List.mem_mergeSort.mp hb
      have hba : ¬ key b ≤ key a := by
        have h := h3 b (List.mem_cons_self b l₁')
        simpa using h
      have hPa : ((a :: l).all (fun y => decide (key y ≤ key a))) = false := by
        refine Bool.eq_false_iff.mpr ?_
        simp only [ne_eq, List.all_eq_true, decide_eq_true_eq, not_forall]
        exact ⟨b, List.mem_cons_of_mem a hbl, hba⟩
      have hcong : l.find? (fun x => (a :: l).all (fun y => decide (key y ≤ key x)))
          = l.find? (fun x => l.all (fun y => decide (key y ≤ key x))) := by
        apply find?_congr_mem
        intro x _
        rw [List.all_cons]
        cases hP : l.all (fun y => decide (key y ≤ key x))
        · rw [Bool.and_false]
        · rw [Bool.and_true]
          have hbx : key b ≤ key x := by
            simpa using List.all_eq_true.mp hP b hbl
          have hax : key a ≤ key x := le_trans (le_of_lt (not_le.mp hba)) hbx
          simp [hax]
      rw [h1, hhead, List.find?_cons_of_neg _ (by simp [hPa]), hcong, hfl]


/-- Reduction of `_select_result_from_spotify_search` when the search
returns at least one result. -/
theorem select_eq_of_ne_nil (sim : Str → Str → ℚ) (search : Str → List SpotifyResult)
    (q nm : Str) (th : ℚ) (hne : search q ≠ []) :
    selectResultFromSpotifySearch sim search q nm th
      = (match (rankResults sim nm (search q)).find? (fun p => decide (p.2 = (1 : ℚ))) with
         | some p => some { id := p.1.id, name := p.1.name, artist := p.1.artist }
         | none =>
           match (rankResults sim nm (search q)).mergeSort (fun a b => decide (b.2 ≤ a.2)) with
           | top :: _ =>
             if th < top.2 then some { id := top.1.id, name := top.1.name, artist := top.1.artist }
             else none
           | [] => none) := by
  unfold selectResultFromSpotifySearch
  rw [if_pos (List.length_pos.mpr hne)]

/-- C1: for a non-empty candidate list, the resolver returns the first
candidate (in catalog order) whose title has similarity exactly 1.0 to the
query title; otherwise the top of the stable descending sort — the first
candidate attaining the maximal similarity — is returned iff its
similarity strictly exceeds the 0.5 threshold, so a best similarity of
exactly 0.5 yields no match. -/
theorem c1_selection_policy (sim : Str → Str → ℚ) (search : Str → List SpotifyResult)
    (q nm : Str) (hne : search q ≠ []) :
    (∀ pr, (rankResults sim nm (search q)).find? (fun p => decide (p.2 = (1 : ℚ))) = some pr →
      selectResultFromSpotifySearch sim search q nm (1/2)
        = some { id := pr.1.id, name := pr.1.name, artist := pr.1.artist })
    ∧ ((rankResults sim nm (search q)).find? (fun p => decide (p.2 = (1 : ℚ))) = none →
      ∀ top, (rankResults sim nm (search q)).find?
          (fun p => (rankResults sim nm (search q)).all (fun y => decide (y.2 ≤ p.2))) = some top →
        selectResultFromSpotifySearch sim search q nm (1/2)
          = if 1/2 < top.2
            then some { id := top.1.id, name := top.1.name, artist := top.1.artist }
            else none)
    ∧ ((rankResults sim nm (search q)).find? (fun p => decide (p.2 = (1 : ℚ))) = none →
      (∀ p ∈ rankResults sim nm (search q), p.2 ≤ 1/2) →
      selectResultFromSpotifySearch sim search q nm (1/2) = none) := by
  have hRne : rankResults sim nm (search q) ≠ [] := by
    rw [rankResults]
    simp [hne]
  have hchar := head_mergeSort_rank (Prod.snd) (rankResults sim nm (search q))
  have key2 : (rankResults sim nm (search q)).find? (fun p => decide (p.2 = (1 : ℚ))) = none →
      ∀ top, (rankResults sim nm (search q)).find?
          (fun p => (rankResults sim nm (search q)).all (fun y => decide (y.2 ≤ p.2))) = some top →
        selectResultFromSpotifySearch sim search q nm (1/2)
          = if 1/2 < top.2
            then some { id := top.1.id, name := top.1.name, artist := top.1.artist }
            else none := by
    intro hnone top htop
    rw [select_eq_of_ne_nil sim search q nm (1/2) hne, hnone]
    rw [htop] at hchar
    cases hms : (rankResults sim nm (search q)).mergeSort (fun a b => decide (b.2 ≤ a.2)) with
    | nil =>
      exfalso
      have := (List.mergeSort_perm (rankResults sim nm (search q)) (fun a b => decide (b.2 ≤ a.2))).length_eq
      rw [hms] at this
      exact hRne (List.length_eq_zero.mp this.symm)
    | cons t rest =>
      rw [hms] at hchar
      have ht : t = top := by
        have : some t = some top := hchar
        exact Option.some.inj this
      rw [ht]
  refine ⟨?_, key2, ?_⟩
  · intro pr hpr
    rw [select_eq_of_ne_nil sim search q nm (1/2) hne, hpr]
  · intro hnone hle
    obtain ⟨top, htop⟩ : ∃ top, (rankResults sim nm (search q)).find?
        (fun p => (rankResults sim nm (search q)).all (fun y => decide (y.2 ≤ p.2))) = some top := by
      cases hms : (rankResults sim nm (search q)).mergeSort (fun a b => decide (b.2 ≤ a.2)) with
      | nil =>
        exfalso
        have := (List.mergeSort_perm (rankResults sim nm (search q)) (fun a b => decide (b.2 ≤ a.2))).length_eq
        rw [hms] at this
        exact hRne (List.length_eq_zero.mp this.symm)
      | cons t rest =>
        refine ⟨t, ?_⟩
        rw [← hchar, hms]
        rfl
    rw [key2 hnone top htop, if_neg]
    exact not_lt.mpr (hle top (List.mem_of_find?_eq_some htop))

/-- Witness for C1: a single candidate whose similarity is exactly 0.5 is
not selected (the threshold is exclusive). -/
theorem c1_selection_policy_witness :
    selectResultFromSpotifySearch (fun _ _ => (1/2 : ℚ))
        (fun _ => [{ id := String.toList "i", name := String.toList "n",
                     artist := String.toList "a" }])
        (String.toList "q") (String.toList "nm") (1/2) = none :=
  (c1_selection_policy (fun _ _ => (1/2 : ℚ))
    (fun _ => [{ id := String.toList "i", name := String.toList "n",
                 artist := String.toList "a" }])
    (String.toList "q") (String.toList "nm") (by simp)).2.2
    (by norm_num [rankResults, List.find?]) (by norm_num [rankResults])

